import Mathlib

/-!
Verification of the channel-routing and processor-lifecycle logic of
JUCE's `AudioProcessorPlayer` (`juce_AudioProcessorPlayer.cpp`).

Sample data is modelled with integer samples: the routing code only moves,
copies and zeroes samples, so the routing claims do not depend on the sample
type.  A buffer is a list of channels, each channel a list of samples.
Pointer identity (which backing store a channel slot aliases) is dropped:
the routing claims are about the sample contents of the slots.

Processor objects are addressed by a natural-number handle (their pointer in
the C++ code); a fixed environment maps each handle to the processor's
immutable attributes, while the attributes the player mutates (processing
precision, installed play head) live in the player state.  Calls the player
makes into a processor or MIDI output are recorded as an event trace.
-/

/-- A pair of channel counts, mirroring `AudioProcessorPlayer::NumChannels`.
The C++ fields are `int` with value-initialised default `0`; channel counts
are never negative, so they are modelled as `Nat`. -/
structure NumChannels where
  ins : Nat := 0
  outs : Nat := 0
deriving DecidableEq, Repr

/-- The sample contents written into channel slot `index` by the
`prepareInputChannel` lambda of `initialiseIoBuffers`: zero-fill when the
device provided no inputs, otherwise a `memcpy` of `numSamples` samples from
device input channel `index % ins.size()`. -/
def prepareInputChannel (ins : List (List Int)) (numSamples : Nat) (index : Nat) : List Int :=
  if ins.isEmpty then List.replicate numSamples 0
  else (ins.getD (index % ins.length) []).take numSamples

/-- The sample contents of the channel-pointer array set up by
`initialiseIoBuffers`.  The first branch handles `processorIns > processorOuts`
(the excess input slots alias the temp buffer); the second branch seeds the
first `processorIns` slots and zeroes slots `[processorIns, processorOuts)`. -/
def initialiseIoBuffers (ins : List (List Int)) (numSamples : Nat)
    (processorIns processorOuts : Nat) : List (List Int) :=
  if processorOuts < processorIns then
    (List.range processorOuts).map (fun i => prepareInputChannel ins numSamples i)
      ++ (List.range' processorOuts (processorIns - processorOuts)).map
          (fun i => prepareInputChannel ins numSamples i)
  else
    (List.range processorIns).map (fun i => prepareInputChannel ins numSamples i)
      ++ (List.range' processorIns (processorOuts - processorIns)).map
          (fun _ => List.replicate numSamples 0)

/-- The processing precision of an `AudioProcessor`
(`AudioProcessor::singlePrecision` / `doublePrecision`). -/
inductive Precision
  | single
  | double
deriving DecidableEq, Repr

/-- A play head (position source) as seen through
`AudioProcessor::setPlayHead` / `getPlayHead`: either the ephemeral
`PlayHead` object the callback constructs (holding the optional host time,
the running sample count and the derived seconds), or an externally owned
`AudioPlayHead` identified by its address. -/
inductive PlayHeadSource
  | engine (hostTimeNs : Option Nat) (sampleCount : Nat) (seconds : Rat)
  | external (addr : Nat)
deriving DecidableEq, Repr

/-- The immutable attributes of one `AudioProcessor`, i.e. the answers the
player obtains by querying it.  `accepts` is `checkBusesLayoutSupported`
restricted to the main-bus channel counts the player builds via
`NumChannels::toLayout`; `busesLayout` is the channel counts of
`getBusesLayout`; `process` is the pure transform `processBlock` applies to
the channel buffer contents. -/
structure ProcessorConfig where
  isMidiEffect : Bool
  supportsDoublePrecisionProcessing : Bool
  busesLayout : NumChannels
  accepts : NumChannels → Bool
  isSuspended : Bool
  process : List (List Int) → List (List Int)

/-- The processor attributes the player mutates: the processing precision
(set by `setProcessingPrecision`, read back by `isUsingDoublePrecision`) and
the installed play head (`setPlayHead` / `getPlayHead`). -/
structure ProcessorMut where
  precision : Precision
  playHead : Option PlayHeadSource
deriving DecidableEq, Repr

/-- The device attributes `AudioProcessorPlayer` reads in
`audioDeviceAboutToStart` and during the callback (`getWorkgroup`,
modelled as an opaque `Option Nat` token). -/
structure DeviceConfig where
  currentSampleRate : Rat
  currentBufferSizeSamples : Int
  activeInputChannels : Nat
  activeOutputChannels : Nat
  workgroup : Option Nat
deriving DecidableEq, Repr

/-- The state of one `AudioProcessorPlayer` instance, together with the
mutable state of every processor (`procMut`, indexed by processor handle)
and the registered MIDI output (`midiOutput`, carrying the value of
`isBackgroundThreadRunning` when present). -/
structure PlayerState where
  processor : Option Nat
  procMut : Nat → ProcessorMut
  sampleRate : Rat
  blockSize : Int
  deviceChannels : NumChannels
  defaultProcessorChannels : NumChannels
  actualProcessorChannels : NumChannels
  channelsSize : Nat
  tempBufferChannels : Nat
  tempBufferSamples : Int
  isPrepared : Bool
  isDoublePrecision : Bool
  sampleCount : Nat
  currentWorkgroup : Option Nat
  currentDevice : Option DeviceConfig
  midiOutput : Option Bool

/-- A call the player makes into a processor (identified by handle), or
into the MIDI output.  `swapHandle` records the assignment
`processor = processorToPlay` inside `setProcessor`, so that the order of
hook invocations relative to the handle swap can be stated. -/
inductive Event
  | setRateAndBufferSizeDetails (p : Nat) (sr : Rat) (bs : Int)
  | setPlayConfigDetails (p : Nat) (numIns numOuts : Nat) (sr : Rat) (bs : Int)
  | setProcessingPrecision (p : Nat) (prec : Precision)
  | prepareToPlay (p : Nat) (sr : Rat) (bs : Int)
  | releaseResources (p : Nat)
  | swapHandle (oldHandle newHandle : Option Nat)
  | workgroupChanged (p : Nat) (wg : Option Nat)
  | setPlayHead (p : Nat) (src : Option PlayHeadSource)
  | processBlock (p : Nat) (prec : Precision)
  | midiOut (background : Bool)
deriving DecidableEq, Repr

/-- Pointwise update of the mutable state of processor `p`. -/
def updateProcMut (f : Nat → ProcessorMut) (p : Nat) (g : ProcessorMut → ProcessorMut) :
    Nat → ProcessorMut :=
  fun q => if q = p then g (f q) else f q

/-- `AudioProcessorPlayer::findMostSuitableLayout`: candidate layouts are
the device channel counts, and — when the device has zero or one input — the
processor's declared input count with the device output count, then the
device output count on both sides.  The first accepted candidate wins;
otherwise `layouts[0]` is returned.  The member reads `deviceChannels` and
`defaultProcessorChannels` are passed as arguments, and
`proc.checkBusesLayoutSupported (chans.toLayout())` is `accepts`. -/
def findMostSuitableLayout (accepts : NumChannels → Bool) (procIsMidiEffect : Bool)
    (deviceChannels defaultProcessorChannels : NumChannels) : NumChannels :=
  if procIsMidiEffect then {}
  else
    let layouts : List NumChannels :=
      deviceChannels ::
        (if deviceChannels.ins = 0 ∨ deviceChannels.ins = 1 then
          [{ ins := defaultProcessorChannels.ins, outs := deviceChannels.outs },
           { ins := deviceChannels.outs, outs := deviceChannels.outs }]
         else [])
    (layouts.find? accepts).getD (layouts.getD 0 {})

/-- The layout negotiation as the specification words it: build an ordered
candidate list — (a) the raw device channel counts; (b) if the device has
zero or one input channel, additionally (processor's declared default input
count, device output count) and then (device output count, device output
count) — and return the first candidate the processor accepts; if none is
accepted, return the device channel counts. -/
def specNegotiatedLayout (accepts : NumChannels → Bool)
    (deviceChannels defaultProcessorChannels : NumChannels) : NumChannels :=
  let candidates : List NumChannels :=
    [deviceChannels] ++
      (if deviceChannels.ins = 0 ∨ deviceChannels.ins = 1 then
        [{ ins := defaultProcessorChannels.ins, outs := deviceChannels.outs },
         { ins := deviceChannels.outs, outs := deviceChannels.outs }]
       else [])
  (candidates.find? accepts).getD deviceChannels

/-- `AudioProcessorPlayer::resizeChannels`: the channel-pointer vector grows
to the largest channel count in play and the temp buffer is sized to
(that count, blockSize). -/
def resizeChannels (st : PlayerState) : PlayerState :=
  let maxChannels := max (max st.deviceChannels.ins st.deviceChannels.outs)
                         (max st.actualProcessorChannels.ins st.actualProcessorChannels.outs)
  { st with channelsSize := maxChannels
            tempBufferChannels := maxChannels
            tempBufferSamples := st.blockSize }

/-- `AudioProcessorPlayer::setProcessor`.  Returns the new player state and
the trace of calls made into processors.  Early-out when the handle is
unchanged; otherwise reset the sample count and workgroup, configure /
set precision on / prepare the incoming processor when a device
configuration is known, swap the hosted handle, mark prepared, resize, and
finally release the outgoing processor if it had been prepared. -/
def setProcessor (env : Nat → ProcessorConfig) (st : PlayerState)
    (processorToPlay : Option Nat) : PlayerState × List Event :=
  if st.processor = processorToPlay then (st, [])
  else
    let st1 := { st with sampleCount := 0, currentWorkgroup := none }
    let (st2, prepEvents) :=
      match processorToPlay with
      | some p =>
        if 0 < st1.sampleRate ∧ 0 < st1.blockSize then
          let cfg := env p
          let defaultChans := cfg.busesLayout
          let actualChans :=
            findMostSuitableLayout cfg.accepts cfg.isMidiEffect st1.deviceChannels defaultChans
          let stA := { st1 with defaultProcessorChannels := defaultChans
                                actualProcessorChannels := actualChans }
          let configEvent :=
            if cfg.isMidiEffect then
              Event.setRateAndBufferSizeDetails p stA.sampleRate stA.blockSize
            else
              Event.setPlayConfigDetails p actualChans.ins actualChans.outs
                stA.sampleRate stA.blockSize
          let supportsDouble := cfg.supportsDoublePrecisionProcessing && stA.isDoublePrecision
          let prec := if supportsDouble then Precision.double else Precision.single
          let stB := { stA with
            procMut := updateProcMut stA.procMut p (fun m => { m with precision := prec }) }
          (stB, [configEvent, Event.setProcessingPrecision p prec,
                 Event.prepareToPlay p stB.sampleRate stB.blockSize])
        else (st1, [])
      | none => (st1, [])
    let oldOne := if st2.isPrepared then st2.processor else none
    let oldHandle := st2.processor
    let st3 := resizeChannels { st2 with processor := processorToPlay, isPrepared := true }
    let releaseEvents :=
      match oldOne with
      | some o => [Event.releaseResources o]
      | none => []
    (st3, prepEvents ++ [Event.swapHandle oldHandle processorToPlay] ++ releaseEvents)

/-- `AudioProcessorPlayer::setDoublePrecisionProcessing`: a no-op when the
flag is unchanged; otherwise reset the workgroup and, when a processor is
hosted, release it, renegotiate precision with the new flag, and re-prepare
it, before storing the new flag. -/
def setDoublePrecisionProcessing (env : Nat → ProcessorConfig) (st : PlayerState)
    (doublePrecision : Bool) : PlayerState × List Event :=
  if doublePrecision ≠ st.isDoublePrecision then
    let st1 := { st with currentWorkgroup := none }
    let (st2, events) :=
      match st1.processor with
      | some p =>
        let cfg := env p
        let supportsDouble := cfg.supportsDoublePrecisionProcessing && doublePrecision
        let prec := if supportsDouble then Precision.double else Precision.single
        let stA := { st1 with
          procMut := updateProcMut st1.procMut p (fun m => { m with precision := prec }) }
        (stA, [Event.releaseResources p, Event.setProcessingPrecision p prec,
               Event.prepareToPlay p stA.sampleRate stA.blockSize])
      | none => (st1, [])
    ({ st2 with isDoublePrecision := doublePrecision }, events)
  else (st, [])

/-- `AudioProcessorPlayer::audioDeviceAboutToStart`: record the device and
its configuration, resize buffers, reset the workgroup, and when a processor
is hosted release it (if prepared) and cycle it through
`setProcessor (nullptr)` / `setProcessor (oldProcessor)`. -/
def audioDeviceAboutToStart (env : Nat → ProcessorConfig) (st : PlayerState)
    (device : DeviceConfig) : PlayerState × List Event :=
  let st1 := { st with currentDevice := some device
                       sampleRate := device.currentSampleRate
                       blockSize := device.currentBufferSizeSamples
                       deviceChannels := { ins := device.activeInputChannels
                                           outs := device.activeOutputChannels } }
  let st2 := { resizeChannels st1 with currentWorkgroup := none }
  match st2.processor with
  | some p =>
    let relEvents := if st2.isPrepared then [Event.releaseResources p] else []
    let (st3, evs1) := setProcessor env st2 none
    let (st4, evs2) := setProcessor env st3 (some p)
    (st4, relEvents ++ evs1 ++ evs2)
  | none => (st2, [])

/-- `AudioProcessorPlayer::audioDeviceStopped`: release the hosted processor
if one is hosted and prepared, then clear the device configuration state
(sample rate, block size, prepared flag, temp buffer, device, workgroup)
while leaving the hosted handle in place. -/
def audioDeviceStopped (st : PlayerState) : PlayerState × List Event :=
  let events :=
    match st.processor with
    | some p => if st.isPrepared then [Event.releaseResources p] else []
    | none => []
  ({ st with sampleRate := 0, blockSize := 0, isPrepared := false,
             tempBufferChannels := 1, tempBufferSamples := 1,
             currentDevice := none, currentWorkgroup := none }, events)

/-- The result of one `audioDeviceIOCallbackWithContext` invocation: the new
player state, the contents of the device output channels on return, and the
trace of calls made into the processor and the MIDI output. -/
structure CallbackResult where
  state : PlayerState
  outputs : List (List Int)
  events : List Event

/-- `AudioProcessorPlayer::audioDeviceIOCallbackWithContext`.  The channel
slots are populated by `initialiseIoBuffers`; when a processor is hosted the
workgroup token is exchanged (notifying the processor on change), the
ephemeral play head is installed if the processor has none, the running
sample counter advances, and — unless the processor is suspended — the block
is processed (through the double-precision conversion buffer when the
negotiated precision is double) and pending MIDI is forwarded.  When no
processor is hosted, or it is suspended, every device output channel is
cleared; the ephemeral play head is uninstalled on every exit path. -/
def audioDeviceIOCallbackWithContext (env : Nat → ProcessorConfig) (st : PlayerState)
    (inputChannelData outputChannelData : List (List Int))
    (numSamples : Nat) (hostTimeNs : Option Nat) : CallbackResult :=
  let buffer := initialiseIoBuffers inputChannelData numSamples
                  st.actualProcessorChannels.ins st.actualProcessorChannels.outs
  match st.processor with
  | none =>
    { state := st
      outputs := outputChannelData.map (fun _ => List.replicate numSamples 0)
      events := [] }
  | some p =>
    let cfg := env p
    let deviceWg :=
      match st.currentDevice with
      | some d => d.workgroup
      | none => none
    let oldWg := st.currentWorkgroup
    let st1 := { st with currentWorkgroup := deviceWg }
    let wgEvents := if oldWg ≠ deviceWg then [Event.workgroupChanged p deviceWg] else []
    let useThisPlayhead := (st1.procMut p).playHead.isNone
    let engineHead :=
      PlayHeadSource.engine hostTimeNs st1.sampleCount ((st1.sampleCount : Rat) / st1.sampleRate)
    let (st2, installEvents) :=
      if useThisPlayhead then
        ({ st1 with
            procMut := updateProcMut st1.procMut p (fun m => { m with playHead := some engineHead }) },
         [Event.setPlayHead p (some engineHead)])
      else (st1, [])
    let st3 := { st2 with sampleCount := st2.sampleCount + numSamples }
    let uninstall (s : PlayerState) : PlayerState × List Event :=
      if useThisPlayhead then
        ({ s with procMut := updateProcMut s.procMut p (fun m => { m with playHead := none }) },
         [Event.setPlayHead p none])
      else (s, [])
    if cfg.isSuspended then
      let (st4, uninstallEvents) := uninstall st3
      { state := st4
        outputs := outputChannelData.map (fun _ => List.replicate numSamples 0)
        events := wgEvents ++ installEvents ++ uninstallEvents }
    else
      let prec := (st3.procMut p).precision
      let processed := cfg.process buffer
      let outs :=
        (List.range outputChannelData.length).map (fun i =>
          if i < st3.actualProcessorChannels.outs then
            processed.getD i (List.replicate numSamples 0)
          else outputChannelData.getD i [])
      let midiEvents :=
        match st3.midiOutput with
        | some background => [Event.midiOut background]
        | none => []
      let (st4, uninstallEvents) := uninstall st3
      { state := st4
        outputs := outs
        events := wgEvents ++ installEvents
                    ++ [Event.processBlock p prec] ++ midiEvents ++ uninstallEvents }

/-- Whether an event is a `releaseResources` call on processor `p`. -/
def Event.isReleaseOf (p : Nat) : Event → Bool
  | .releaseResources q => q = p
  | _ => false

/-- Whether an event is a `prepareToPlay` call on processor `p`. -/
def Event.isPrepareFor (p : Nat) : Event → Bool
  | .prepareToPlay q _ _ => q = p
  | _ => false

/-- A concrete non-suspended processor used in witness scenarios: a plain
stereo effect accepting every layout. -/
def sampleProcessor : ProcessorConfig :=
  { isMidiEffect := false
    supportsDoublePrecisionProcessing := true
    busesLayout := { ins := 2, outs := 2 }
    accepts := fun _ => true
    isSuspended := false
    process := fun b => b }

/-- A concrete suspended processor used in witness scenarios. -/
def suspendedProcessor : ProcessorConfig :=
  { sampleProcessor with isSuspended := true }

/-- Environment for witness scenarios: handle 0 is the active processor,
every other handle the suspended one. -/
def sampleEnv : Nat → ProcessorConfig :=
  fun p => if p = 0 then sampleProcessor else suspendedProcessor

/-- A concrete player state hosting (prepared) processor 0 with a known
44.1 kHz / 4-sample device configuration. -/
def sampleState : PlayerState :=
  { processor := some 0
    procMut := fun _ => { precision := Precision.single, playHead := none }
    sampleRate := 44100
    blockSize := 4
    deviceChannels := { ins := 2, outs := 2 }
    defaultProcessorChannels := { ins := 2, outs := 2 }
    actualProcessorChannels := { ins := 2, outs := 2 }
    channelsSize := 2
    tempBufferChannels := 2
    tempBufferSamples := 4
    isPrepared := true
    isDoublePrecision := false
    sampleCount := 0
    currentWorkgroup := none
    currentDevice := none
    midiOutput := none }

/-- The same player state with no processor hosted and nothing prepared. -/
def detachedState : PlayerState :=
  { sampleState with processor := none, isPrepared := false }

/-- The same player state hosting the suspended processor (handle 1). -/
def suspendedState : PlayerState :=
  { sampleState with processor := some 1 }

/-- The same player state with an externally owned play head already
installed on every processor. -/
def playheadState : PlayerState :=
  { sampleState with
      procMut := fun _ =>
        { precision := Precision.single, playHead := some (PlayHeadSource.external 7) } }

/-- A player state with no processor hosted, nothing prepared and no device
configuration known (zero sample rate). -/
def unpreparedState : PlayerState :=
  { detachedState with sampleRate := 0 }

/-- A concrete device configuration used in witness scenarios. -/
def sampleDevice : DeviceConfig :=
  { currentSampleRate := 48000
    currentBufferSizeSamples := 8
    activeInputChannels := 2
    activeOutputChannels := 2
    workgroup := none }

/-! ## Properties of the channel router -/

theorem initialiseIoBuffers_length (ins : List (List Int)) (numSamples pIns pOuts : Nat) :
    (initialiseIoBuffers ins numSamples pIns pOuts).length = max pIns pOuts := by
  unfold initialiseIoBuffers
  split <;> simp <;> omega

theorem prepareInputChannel_nil (numSamples index : Nat) :
    prepareInputChannel [] numSamples index = List.replicate numSamples 0 := by
  simp [prepareInputChannel]

theorem prepareInputChannel_of_ne_nil (ins : List (List Int)) (numSamples index : Nat)
    (hne : ins ≠ []) (hlen : ∀ c ∈ ins, c.length = numSamples) :
    prepareInputChannel ins numSamples index = ins.getD (index % ins.length) [] := by
  unfold prepareInputChannel
  rw [if_neg (by simpa using hne)]
  have hmem : ins.getD (index % ins.length) [] ∈ ins := by
    rw [List.getD_eq_getElem _ _ (Nat.mod_lt _ (List.length_pos.mpr hne))]
    exact List.getElem_mem _
  exact List.take_of_length_le (Nat.le_of_eq (hlen _ hmem))

theorem initialiseIoBuffers_getD (ins : List (List Int)) (numSamples pIns pOuts i : Nat)
    (hi : i < max pIns pOuts) :
    (initialiseIoBuffers ins numSamples pIns pOuts).getD i [] =
      if i < pIns then prepareInputChannel ins numSamples i
      else List.replicate numSamples 0 := by
  unfold initialiseIoBuffers
  rcases Nat.lt_or_ge pOuts pIns with h | h
  · rw [if_pos h]
    have hiIns : i < pIns := by omega
    rw [if_pos hiIns]
    rcases Nat.lt_or_ge i pOuts with hio | hio
    · rw [List.getD_append _ _ _ _ (by simpa using hio)]
      rw [List.getD_eq_getElem _ _ (by simpa using hio)]
      simp
    · rw [List.getD_append_right _ _ _ _ (by simpa using hio)]
      rw [List.getD_eq_getElem _ _ (by simp; omega)]
      simp
      congr 1
      omega
  · rw [if_neg (by omega)]
    rcases Nat.lt_or_ge i pIns with hio | hio
    · rw [if_pos hio]
      rw [List.getD_append _ _ _ _ (by simpa using hio)]
      rw [List.getD_eq_getElem _ _ (by simpa using hio)]
      simp
    · rw [if_neg (by omega)]
      rw [List.getD_append_right _ _ _ _ (by simpa using hio)]
      rw [List.getD_eq_getElem _ _ (by simp; omega)]
      simp

/-- C1: after `initialiseIoBuffers` populates the destination array for a
block of `numSamples` samples, every slot with index at least `processorIns`
is all-zero; when the device provided no input channels every slot below
`processorIns` is all-zero; when it provided exactly one input channel every
slot below `processorIns` is a copy of that channel; otherwise slot `i`
below `processorIns` is a copy of device input channel `i % deviceInputCount`. -/
theorem routing_correctness (ins : List (List Int)) (numSamples pIns pOuts i : Nat)
    (hlen : ∀ c ∈ ins, c.length = numSamples) (hi : i < max pIns pOuts) :
    (pIns ≤ i →
      (initialiseIoBuffers ins numSamples pIns pOuts).getD i [] =
        List.replicate numSamples 0) ∧
    (i < pIns → ins = [] →
      (initialiseIoBuffers ins numSamples pIns pOuts).getD i [] =
        List.replicate numSamples 0) ∧
    (i < pIns → ∀ c, ins = [c] →
      (initialiseIoBuffers ins numSamples pIns pOuts).getD i [] = c) ∧
    (i < pIns → 2 ≤ ins.length →
      (initialiseIoBuffers ins numSamples pIns pOuts).getD i [] =
        ins.getD (i % ins.length) []) := by
  have key := initialiseIoBuffers_getD ins numSamples pIns pOuts i hi
  refine ⟨fun hle => ?_, fun hlt hnil => ?_, fun hlt c hc => ?_, fun hlt h2 => ?_⟩
  · rw [key, if_neg (by omega)]
  · rw [key, if_pos hlt, hnil, prepareInputChannel_nil]
  · rw [key, if_pos hlt, hc,
      prepareInputChannel_of_ne_nil _ _ _ (by simp) (by rw [← hc]; exact hlen)]
    simp [Nat.mod_one]
  · rw [key, if_pos hlt,
      prepareInputChannel_of_ne_nil _ _ _ (by intro h; rw [h] at h2; simp at h2) hlen]

theorem routing_correctness_witness :
    (initialiseIoBuffers [[5, 7], [9, 11]] 2 3 1).getD 2 [] = [5, 7] := by
  have h := (routing_correctness [[5, 7], [9, 11]] 2 3 1 2 (by decide) (by decide)).2.2.2
    (by decide) (by decide)
  simpa using h

/-- C2: for a processor that is not a MIDI effect, `findMostSuitableLayout`
behaves exactly as the specification describes the negotiation: it tries the
device channel counts first, then — only when the device has zero or one
input — the processor's declared default input count with the device output
count and then the device output count on both sides, returns the first
candidate the processor accepts, and falls back to the device channel counts
(without signalling failure) when no candidate is accepted. -/
theorem layout_negotiation_matches_spec (accepts : NumChannels → Bool)
    (deviceChannels defaultProcessorChannels : NumChannels) :
    findMostSuitableLayout accepts false deviceChannels defaultProcessorChannels =
      specNegotiatedLayout accepts deviceChannels defaultProcessorChannels := by
  simp [findMostSuitableLayout, specNegotiatedLayout]

/-! ## Lifecycle properties -/

/-- C6: re-attaching the handle that is already hosted leaves the whole
player state unchanged and invokes no processor hook (the sample counter is
not reset), and setting the double-precision flag to its current value is
likewise a complete no-op. -/
theorem reattach_same_handle_noop (env : Nat → ProcessorConfig) (st : PlayerState) :
    setProcessor env st st.processor = (st, []) ∧
    setDoublePrecisionProcessing env st st.isDoublePrecision = (st, []) := by
  constructor
  · simp [setProcessor]
  · simp [setDoublePrecisionProcessing]

/-- C7: `audioDeviceStopped` leaves the hosted handle unchanged, clears the
sample rate, block size and prepared flag, emits exactly one
`releaseResources` call when a prepared processor is hosted, and emits no
call otherwise. -/
theorem device_stopped_spec (st : PlayerState) :
    (audioDeviceStopped st).1.processor = st.processor ∧
    (audioDeviceStopped st).1.sampleRate = 0 ∧
    (audioDeviceStopped st).1.blockSize = 0 ∧
    (audioDeviceStopped st).1.isPrepared = false ∧
    (∀ p, st.processor = some p → st.isPrepared = true →
      (audioDeviceStopped st).2 = [Event.releaseResources p]) ∧
    (st.isPrepared = false → (audioDeviceStopped st).2 = []) ∧
    (st.processor = none → (audioDeviceStopped st).2 = []) := by
  refine ⟨rfl, rfl, rfl, rfl, fun p hp hprep => ?_, fun hprep => ?_, fun hp => ?_⟩
  · simp [audioDeviceStopped, hp, hprep]
  · simp [audioDeviceStopped, hprep]
    split <;> simp
  · simp [audioDeviceStopped, hp]

theorem device_stopped_spec_witness :
    (audioDeviceStopped sampleState).2 = [Event.releaseResources 0] :=
  (device_stopped_spec sampleState).2.2.2.2.1 0 rfl rfl

/-- C4: attaching a processor with a known device configuration, and
changing the double-precision mode with a hosted processor, both set the
processor's precision to double exactly when the processor supports double
precision and double-precision mode is requested — single precision in every
other case — and invoke `prepareToPlay` after `setProcessingPrecision`. -/
theorem precision_negotiation (env : Nat → ProcessorConfig) (st : PlayerState) (p : Nat)
    (b : Bool) :
    (st.processor ≠ some p → 0 < st.sampleRate → 0 < st.blockSize →
      (((setProcessor env st (some p)).1.procMut p).precision = Precision.double ↔
        ((env p).supportsDoublePrecisionProcessing = true ∧ st.isDoublePrecision = true)) ∧
      List.Sublist
        [Event.setProcessingPrecision p ((setProcessor env st (some p)).1.procMut p).precision,
         Event.prepareToPlay p st.sampleRate st.blockSize]
        (setProcessor env st (some p)).2) ∧
    (st.processor = some p → b ≠ st.isDoublePrecision →
      (((setDoublePrecisionProcessing env st b).1.procMut p).precision = Precision.double ↔
        ((env p).supportsDoublePrecisionProcessing = true ∧ b = true)) ∧
      (setDoublePrecisionProcessing env st b).2 =
        [Event.releaseResources p,
         Event.setProcessingPrecision p
           ((setDoublePrecisionProcessing env st b).1.procMut p).precision,
         Event.prepareToPlay p st.sampleRate st.blockSize]) := by
  constructor
  · intro hne h1 h2
    have hprec : ((setProcessor env st (some p)).1.procMut p).precision =
        (if ((env p).supportsDoublePrecisionProcessing && st.isDoublePrecision) = true then
          Precision.double else Precision.single) := by
      simp only [setProcessor, if_neg hne, if_pos (And.intro h1 h2)]
      simp [resizeChannels, updateProcMut]
    constructor
    · rw [hprec]
      cases hsd : (env p).supportsDoublePrecisionProcessing <;>
        cases hdp : st.isDoublePrecision <;> simp
    · rw [hprec]
      simp only [setProcessor, if_neg hne, if_pos (And.intro h1 h2), List.append_assoc,
        List.cons_append, List.nil_append]
      exact List.Sublist.cons _ (List.Sublist.cons₂ _ (List.Sublist.cons₂ _ (List.nil_sublist _)))
  · intro hp hb
    have hprec : ((setDoublePrecisionProcessing env st b).1.procMut p).precision =
        (if ((env p).supportsDoublePrecisionProcessing && b) = true then
          Precision.double else Precision.single) := by
      simp only [setDoublePrecisionProcessing, if_pos hb, hp]
      simp [updateProcMut]
    constructor
    · rw [hprec]
      cases hsd : (env p).supportsDoublePrecisionProcessing <;> cases b <;> simp
    · rw [hprec]
      simp only [setDoublePrecisionProcessing, if_pos hb, hp]

theorem precision_negotiation_witness :
    ((setProcessor sampleEnv detachedState (some 0)).1.procMut 0).precision ≠ Precision.double ∧
    List.Sublist
      [Event.setProcessingPrecision 0
         ((setProcessor sampleEnv detachedState (some 0)).1.procMut 0).precision,
       Event.prepareToPlay 0 detachedState.sampleRate detachedState.blockSize]
      (setProcessor sampleEnv detachedState (some 0)).2 := by
  have h := (precision_negotiation sampleEnv detachedState 0 true).1 (by decide) (by decide)
    (by decide)
  exact ⟨fun hd => absurd (h.1.mp hd).2 (by decide), h.2⟩

/-- C5: when `setProcessor` replaces a previously prepared processor, the
old processor's `releaseResources` is the final call of the operation, the
handle swap occurs strictly before it, no release of the old processor
happens earlier, and (when a device configuration is known) the new
processor's `prepareToPlay` also precedes the release. -/
theorem release_after_swap (env : Nat → ProcessorConfig) (st : PlayerState)
    (old : Nat) (newHandle : Option Nat) (hold : st.processor = some old)
    (hprep : st.isPrepared = true) (hne : newHandle ≠ some old) :
    (setProcessor env st newHandle).2 =
      (setProcessor env st newHandle).2.dropLast ++ [Event.releaseResources old] ∧
    Event.swapHandle (some old) newHandle ∈ (setProcessor env st newHandle).2.dropLast ∧
    Event.releaseResources old ∉ (setProcessor env st newHandle).2.dropLast ∧
    (∀ p, newHandle = some p → 0 < st.sampleRate → 0 < st.blockSize →
      Event.prepareToPlay p st.sampleRate st.blockSize ∈
        (setProcessor env st newHandle).2.dropLast) := by
  cases newHandle with
  | none =>
    simp [setProcessor, hold, hprep, List.dropLast]
  | some p =>
    have hop : ¬ old = p := fun h => hne (congrArg some h).symm
    by_cases hc : 0 < st.sampleRate ∧ 0 < st.blockSize
    · cases hm : (env p).isMidiEffect <;>
        simp [setProcessor, hold, hprep, hop, hm, hc, List.dropLast]
    · simp [setProcessor, hold, hprep, hop, hc, List.dropLast]
      intro hsr
      by_contra hbs
      exact hc ⟨hsr, lt_of_not_le hbs⟩

theorem release_after_swap_witness :
    (setProcessor sampleEnv sampleState (some 1)).2 =
      (setProcessor sampleEnv sampleState (some 1)).2.dropLast ++ [Event.releaseResources 0] ∧
    Event.swapHandle (some 0) (some 1) ∈
      (setProcessor sampleEnv sampleState (some 1)).2.dropLast ∧
    Event.releaseResources 0 ∉ (setProcessor sampleEnv sampleState (some 1)).2.dropLast ∧
    Event.prepareToPlay 1 sampleState.sampleRate sampleState.blockSize ∈
      (setProcessor sampleEnv sampleState (some 1)).2.dropLast := by
  have h := release_after_swap sampleEnv sampleState 0 (some 1) rfl rfl (by decide)
  exact ⟨h.1, h.2.1, h.2.2.1, h.2.2.2 1 rfl (by decide) (by decide)⟩

/-- C8: when the hosted processor already has a position source installed
before a block, the callback neither replaces nor uninstalls it — the play
head after the callback is the one from before and no `setPlayHead` call
occurs; the engine installs its own per-block position source exactly when
the processor had none (and revokes it before returning). -/
theorem playhead_not_overridden (env : Nat → ProcessorConfig) (st : PlayerState) (p : Nat)
    (ins outs : List (List Int)) (numSamples : Nat) (hostTimeNs : Option Nat)
    (hp : st.processor = some p) :
    (∀ h, (st.procMut p).playHead = some h →
      ((audioDeviceIOCallbackWithContext env st ins outs numSamples
          hostTimeNs).state.procMut p).playHead = some h ∧
      (∀ s, Event.setPlayHead p s ∉
        (audioDeviceIOCallbackWithContext env st ins outs numSamples hostTimeNs).events)) ∧
    ((st.procMut p).playHead = none →
      ((audioDeviceIOCallbackWithContext env st ins outs numSamples
          hostTimeNs).state.procMut p).playHead = none ∧
      Event.setPlayHead p (some (PlayHeadSource.engine hostTimeNs st.sampleCount
          ((st.sampleCount : Rat) / st.sampleRate))) ∈
        (audioDeviceIOCallbackWithContext env st ins outs numSamples hostTimeNs).events) := by
  constructor
  · intro h hh
    constructor
    · simp [audioDeviceIOCallbackWithContext, hp, hh]
      split <;> simp [hh]
    · intro s
      rcases hmo : st.midiOutput with _ | b <;>
        (simp [audioDeviceIOCallbackWithContext, hp, hh, hmo] <;>
          (try split) <;> (try split) <;> simp_all)
  · intro hh
    constructor
    · simp [audioDeviceIOCallbackWithContext, hp, hh, updateProcMut]
      split <;> simp [updateProcMut]
    · simp [audioDeviceIOCallbackWithContext, hp, hh, updateProcMut]
      split <;> simp

theorem playhead_not_overridden_witness :
    ((audioDeviceIOCallbackWithContext sampleEnv playheadState [] [[0, 0], [0, 0]] 2
        none).state.procMut 0).playHead = some (PlayHeadSource.external 7) ∧
    Event.setPlayHead 0 none ∉
      (audioDeviceIOCallbackWithContext sampleEnv playheadState [] [[0, 0], [0, 0]] 2
        none).events := by
  have h := (playhead_not_overridden sampleEnv playheadState 0 [] [[0, 0], [0, 0]] 2
    none rfl).1 (PlayHeadSource.external 7) rfl
  exact ⟨h.1, h.2 none⟩

theorem setProcessor_swap_mem_release (env : Nat → ProcessorConfig) (st : PlayerState)
    (p : Nat) (ph2 : Option Nat) (hp : st.processor = some p) (hprep : st.isPrepared = true)
    (hne : ph2 ≠ some p) (hsr : ¬ 0 < st.sampleRate) :
    Event.releaseResources p ∈ (setProcessor env st ph2).2 ∧
    ∀ q sr bs, Event.prepareToPlay q sr bs ∉ (setProcessor env st ph2).2 := by
  cases ph2 with
  | none => simp [setProcessor, hp, hprep]
  | some q =>
    have hop : ¬ p = q := fun h => hne (congrArg some h).symm
    have hc : ¬ (0 < st.sampleRate ∧ 0 < st.blockSize) := fun h => hsr h.1
    simp [setProcessor, hp, hprep, hc, hop]

/-- C9: every `setProcessor` call that changes the handle leaves the
internal `isPrepared` flag set — also when detaching and when attaching
while no device configuration is known (no positive sample rate), in which
case no `prepareToPlay` is ever issued; both a subsequent
`audioDeviceStopped` and a subsequent handle-changing `setProcessor`
(processor swap) then still issue `releaseResources` on the never-prepared
processor (and the swap itself issues no `prepareToPlay` either, the device
still being unconfigured). -/
theorem prepared_flag_after_setProcessor (env : Nat → ProcessorConfig) (st : PlayerState)
    (ph : Option Nat) (hne : st.processor ≠ ph) :
    (setProcessor env st ph).1.isPrepared = true ∧
    (¬ 0 < st.sampleRate →
      ∀ p sr bs, Event.prepareToPlay p sr bs ∉ (setProcessor env st ph).2) ∧
    (∀ p, ph = some p → ¬ 0 < st.sampleRate →
      (audioDeviceStopped (setProcessor env st ph).1).2 = [Event.releaseResources p]) ∧
    (∀ p, ph = some p → ¬ 0 < st.sampleRate → ∀ ph2, ph2 ≠ some p →
      Event.releaseResources p ∈ (setProcessor env (setProcessor env st ph).1 ph2).2 ∧
      ∀ q sr bs, Event.prepareToPlay q sr bs ∉
        (setProcessor env (setProcessor env st ph).1 ph2).2) := by
  refine ⟨?_, ?_, ?_, ?_⟩
  · cases ph with
    | none => simp [setProcessor, hne, resizeChannels]
    | some p =>
      by_cases hc : 0 < st.sampleRate ∧ 0 < st.blockSize <;>
        simp [setProcessor, hne, hc, resizeChannels]
  · intro hsr p sr bs
    cases ph with
    | none =>
      simp [setProcessor, hne]
      split <;> simp
    | some q =>
      have hc : ¬ (0 < st.sampleRate ∧ 0 < st.blockSize) := fun h => hsr h.1
      simp [setProcessor, hne, hc]
      split <;> simp
  · intro p hph hsr
    subst hph
    have hc : ¬ (0 < st.sampleRate ∧ 0 < st.blockSize) := fun h => hsr h.1
    simp [setProcessor, hne, hc, audioDeviceStopped, resizeChannels]
  · intro p hph hsr ph2 hne2
    subst hph
    have hc : ¬ (0 < st.sampleRate ∧ 0 < st.blockSize) := fun h => hsr h.1
    have hp1 : (setProcessor env st (some p)).1.processor = some p := by
      simp [setProcessor, hne, hc, resizeChannels]
    have hprep1 : (setProcessor env st (some p)).1.isPrepared = true := by
      simp [setProcessor, hne, hc, resizeChannels]
    have hsr1 : (setProcessor env st (some p)).1.sampleRate = st.sampleRate := by
      simp [setProcessor, hne, hc, resizeChannels]
    exact setProcessor_swap_mem_release env _ p ph2 hp1 hprep1 hne2
      (by rw [hsr1]; exact hsr)

theorem prepared_flag_after_setProcessor_witness :
    (setProcessor sampleEnv unpreparedState (some 0)).1.isPrepared = true ∧
    Event.releaseResources 0 ∈
      (setProcessor sampleEnv (setProcessor sampleEnv unpreparedState (some 0)).1 none).2 ∧
    ∀ q sr bs, Event.prepareToPlay q sr bs ∉
      (setProcessor sampleEnv (setProcessor sampleEnv unpreparedState (some 0)).1 none).2 := by
  have h := prepared_flag_after_setProcessor sampleEnv unpreparedState (some 0) (by decide)
  have h4 := h.2.2.2 0 rfl (by decide) none (by decide)
  exact ⟨h.1, h4.1, h4.2⟩

/-- C10: an `audioDeviceAboutToStart` with a prepared hosted processor and a
valid device configuration invokes the processor's `releaseResources`
exactly twice — once directly and once inside the internal detach — before
exactly one `prepareToPlay` issued by the re-attach. -/
theorem device_restart_releases_twice (env : Nat → ProcessorConfig) (st : PlayerState)
    (p : Nat) (device : DeviceConfig) (hp : st.processor = some p)
    (hprep : st.isPrepared = true) (hsr : 0 < device.currentSampleRate)
    (hbs : 0 < device.currentBufferSizeSamples) :
    ((audioDeviceAboutToStart env st device).2.filter (Event.isReleaseOf p)).length = 2 ∧
    ((audioDeviceAboutToStart env st device).2.filter (Event.isPrepareFor p)).length = 1 ∧
    List.Sublist
      [Event.releaseResources p, Event.releaseResources p,
       Event.prepareToPlay p device.currentSampleRate device.currentBufferSizeSamples]
      (audioDeviceAboutToStart env st device).2 := by
  have htrace : (audioDeviceAboutToStart env st device).2 =
      [Event.releaseResources p, Event.swapHandle (some p) none, Event.releaseResources p,
       (if (env p).isMidiEffect = true then
          Event.setRateAndBufferSizeDetails p device.currentSampleRate
            device.currentBufferSizeSamples
        else
          Event.setPlayConfigDetails p
            (findMostSuitableLayout (env p).accepts (env p).isMidiEffect
              { ins := device.activeInputChannels, outs := device.activeOutputChannels }
              (env p).busesLayout).ins
            (findMostSuitableLayout (env p).accepts (env p).isMidiEffect
              { ins := device.activeInputChannels, outs := device.activeOutputChannels }
              (env p).busesLayout).outs
            device.currentSampleRate device.currentBufferSizeSamples),
       Event.setProcessingPrecision p
         (if ((env p).supportsDoublePrecisionProcessing && st.isDoublePrecision) = true then
            Precision.double else Precision.single),
       Event.prepareToPlay p device.currentSampleRate device.currentBufferSizeSamples,
       Event.swapHandle none (some p)] := by
    simp [audioDeviceAboutToStart, setProcessor, resizeChannels, hp, hprep, hsr, hbs]
  refine ⟨?_, ?_, ?_⟩
  · rw [htrace]
    cases hm : (env p).isMidiEffect <;>
      simp [hm, Event.isReleaseOf, Event.isPrepareFor]
  · rw [htrace]
    cases hm : (env p).isMidiEffect <;>
      simp [hm, Event.isReleaseOf, Event.isPrepareFor]
  · rw [htrace]
    exact List.Sublist.cons₂ _ (List.Sublist.cons _ (List.Sublist.cons₂ _
      (List.Sublist.cons _ (List.Sublist.cons _ (List.Sublist.cons₂ _
        (List.nil_sublist _))))))

theorem device_restart_releases_twice_witness :
    ((audioDeviceAboutToStart sampleEnv sampleState sampleDevice).2.filter
        (Event.isReleaseOf 0)).length = 2 ∧
    ((audioDeviceAboutToStart sampleEnv sampleState sampleDevice).2.filter
        (Event.isPrepareFor 0)).length = 1 := by
  have h := device_restart_releases_twice sampleEnv sampleState 0 sampleDevice rfl rfl
    (by decide) (by decide)
  exact ⟨h.1, h.2.1⟩

/-- C3 (amended): when no processor is hosted or the hosted processor is
suspended, every device output channel is filled with zeros and the
processor is not invoked and no MIDI output is forwarded; with no processor
hosted the callback performs none of the later per-block steps (state
unchanged, empty call trace), but with a suspended processor the running
sample counter still advances by the block size (and the context check and
position-source install/revoke still run). -/
theorem silence_on_absent_or_suspended (env : Nat → ProcessorConfig) (st : PlayerState)
    (ins outs : List (List Int)) (numSamples : Nat) (hostTimeNs : Option Nat) :
    (st.processor = none →
      audioDeviceIOCallbackWithContext env st ins outs numSamples hostTimeNs =
        ⟨st, outs.map (fun _ => List.replicate numSamples 0), []⟩) ∧
    (∀ p, st.processor = some p → (env p).isSuspended = true →
      (audioDeviceIOCallbackWithContext env st ins outs numSamples hostTimeNs).outputs =
        outs.map (fun _ => List.replicate numSamples 0) ∧
      (∀ q prec, Event.processBlock q prec ∉
        (audioDeviceIOCallbackWithContext env st ins outs numSamples hostTimeNs).events) ∧
      (∀ b, Event.midiOut b ∉
        (audioDeviceIOCallbackWithContext env st ins outs numSamples hostTimeNs).events) ∧
      (audioDeviceIOCallbackWithContext env st ins outs numSamples
          hostTimeNs).state.sampleCount = st.sampleCount + numSamples) := by
  constructor
  · intro hp
    simp [audioDeviceIOCallbackWithContext, hp]
  · intro p hp hsusp
    refine ⟨?_, ?_, ?_, ?_⟩
    · simp [audioDeviceIOCallbackWithContext, hp, hsusp]
      all_goals ((try split) <;> (try split) <;> simp_all)
    · intro q prec
      simp [audioDeviceIOCallbackWithContext, hp, hsusp]
      all_goals ((try split) <;> (try split) <;> simp_all)
    · intro b
      simp [audioDeviceIOCallbackWithContext, hp, hsusp]
      all_goals ((try split) <;> (try split) <;> simp_all)
    · simp [audioDeviceIOCallbackWithContext, hp, hsusp]
      all_goals ((try split) <;> (try split) <;> simp_all)

/-- C3 counterexample: with a suspended processor hosted, the callback does
not skip all later per-block steps — the running sample counter advances
and the ephemeral position source is installed — refuting the claim as
stated. -/
theorem silence_claim_counterexample :
    (sampleEnv 1).isSuspended = true ∧
    suspendedState.processor = some 1 ∧
    (audioDeviceIOCallbackWithContext sampleEnv suspendedState []
        [[1, 1, 1, 1], [2, 2, 2, 2]] 4 none).state.sampleCount ≠
      suspendedState.sampleCount ∧
    Event.setPlayHead 1 (some (PlayHeadSource.engine none 0 0)) ∈
      (audioDeviceIOCallbackWithContext sampleEnv suspendedState []
        [[1, 1, 1, 1], [2, 2, 2, 2]] 4 none).events := by
  refine ⟨rfl, rfl, ?_, ?_⟩ <;>
    simp [audioDeviceIOCallbackWithContext, suspendedState, sampleState, sampleEnv,
      suspendedProcessor, sampleProcessor, updateProcMut]

theorem silence_on_absent_or_suspended_witness :
    (audioDeviceIOCallbackWithContext sampleEnv suspendedState [] [[3, 3], [4, 4]] 2
        none).outputs = [[0, 0], [0, 0]] ∧
    (audioDeviceIOCallbackWithContext sampleEnv suspendedState [] [[3, 3], [4, 4]] 2
        none).state.sampleCount = suspendedState.sampleCount + 2 := by
  have h := (silence_on_absent_or_suspended sampleEnv suspendedState [] [[3, 3], [4, 4]] 2
    none).2 1 rfl rfl
  exact ⟨by simpa using h.1, h.2.2.2⟩

/-- C9 counterexample: a `setProcessor` call re-passing the handle that is
already hosted is an early-return no-op — after `audioDeviceStopped` has
cleared the prepared flag, such a call leaves it false, so the prepared
flag is not true after every `setProcessor` call. -/
theorem prepared_flag_claim_counterexample :
    (audioDeviceStopped sampleState).1.processor = some 0 ∧
    (setProcessor sampleEnv (audioDeviceStopped sampleState).1 (some 0)).1.isPrepared
      = false := by
  constructor
  · rfl
  · simp [setProcessor, audioDeviceStopped, sampleState]

-- Differential checks against the buffer-preparation expectations of the
-- AudioProcessorPlayerTests unit test (device channel k filled with value
-- k+1, here with 2-sample blocks).
theorem initialiseIoBuffers_testVector_fourEight :
    initialiseIoBuffers [[1, 1], [2, 2], [3, 3], [4, 4]] 2 4 8 =
      [[1, 1], [2, 2], [3, 3], [4, 4], [0, 0], [0, 0], [0, 0], [0, 0]] := by decide

theorem initialiseIoBuffers_testVector_broadcast :
    initialiseIoBuffers [[1, 1]] 2 8 4 =
      [[1, 1], [1, 1], [1, 1], [1, 1], [1, 1], [1, 1], [1, 1], [1, 1]] := by decide

theorem initialiseIoBuffers_testVector_noInputs :
    initialiseIoBuffers [] 2 4 4 = [[0, 0], [0, 0], [0, 0], [0, 0]] := by decide

theorem initialiseIoBuffers_testVector_tempSlots :
    initialiseIoBuffers [[1, 1], [2, 2]] 2 3 1 = [[1, 1], [2, 2], [1, 1]] := by decide
